import Mathlib

/-!
Shallow embedding of the v-gen timeline renderer core
(`src/renderer/src/page.js`, `src/renderer/src/render.js`,
`src/renderer/tools/mix-audio.js`): the active-object resolver, the
news-banner timing computation, the subtitle selector and the audio
mix-graph builder, together with theorems settling the specification
claims about them.

JavaScript numbers are modelled by `ℚ` (the resolver only performs field
arithmetic); the one place where the evaluation order of JavaScript's
special values matters (the interpolation-parameter computation at a
degenerate duration) is additionally modelled with an explicit
NaN/Infinity type `JNum`.  Dynamic field access `obj.f` on optional
fields is modelled with `Option`; the JavaScript idioms `x || d` (which
treats `0` and `""` as absent) and `x ?? d` (which only treats
`undefined` as absent) are modelled by `jsOrQ`/`jsOrZ`/`jsOrS` and
`Option.getD` respectively.
-/

/-- JavaScript `Math.round` for the (finite) arguments the renderer produces:
round half towards positive infinity, i.e. `⌊q + 1/2⌋`. -/
def jsRound (q : ℚ) : ℤ := ⌊q + 1/2⌋

/-- JavaScript `x || d` for an optional numeric field: `undefined` and `0`
are falsy, so both fall back to the default. -/
def jsOrQ (x : Option ℚ) (d : ℚ) : ℚ :=
  match x with
  | some v => if v = 0 then d else v
  | none => d

/-- JavaScript `x || d` for an optional integer field (used for `z` values). -/
def jsOrZ (x : Option ℤ) (d : ℤ) : ℤ :=
  match x with
  | some v => if v = 0 then d else v
  | none => d

/-- JavaScript `x || d` for an optional string field: `undefined` and the
empty string are falsy. -/
def jsOrS (x : Option String) (d : String) : String :=
  match x with
  | some v => if v = "" then d else v
  | none => d

/-- `lerp(a, b, t) = a + (b - a) * t` (page.js). -/
def lerp (a b t : ℚ) : ℚ := a + (b - a) * t

/-- The `Easings` object of page.js: a table of the three named easing
curves.  Indexing it with any other name yields `undefined`, modelled as
`none`. -/
def Easings (name : String) : Option (ℚ → ℚ) :=
  if name = "linear" then some (fun t => t)
  else if name = "easeInOut" then
    some (fun t => if t < 1/2 then 2 * t * t else -1 + (4 - 2 * t) * t)
  else if name = "easeOut" then some (fun t => 1 - (1 - t) ^ 3)
  else none

/-- The `{ in, out }` fade descriptor (seconds), as read off the animation
object by `fadeAlpha`. -/
structure FadeSpec where
  inSec : Option ℚ
  outSec : Option ℚ
deriving DecidableEq

/-- `fadeAlpha(localT, durMs, fade)` of page.js: linear ramp during the
fade-in window, clamped ramp during the fade-out window, `1` otherwise
(and `1` when no fade object is supplied). -/
def fadeAlpha (localT durMs : ℚ) (fade : Option FadeSpec) : ℚ :=
  match fade with
  | none => 1
  | some f =>
    let fi := jsOrQ f.inSec 0 * 1000
    let fo := jsOrQ f.outSec 0 * 1000
    if 0 < fi ∧ localT < fi then localT / fi
    else if 0 < fo ∧ durMs - fo < localT then max 0 ((durMs - localT) / fo)
    else 1

/-- An animation entry of a scene object.  In the JSON the payload fields
are dynamic (`from`/`to` are a scalar for `zoom` and an `{x,y}` object for
`move`; `in`/`out` belong to `fade`); the typed view splits them into
optional fields. -/
structure Animation where
  type : String
  easing : Option String := none
  fromN : Option ℚ := none
  toN : Option ℚ := none
  fromX : Option ℚ := none
  fromY : Option ℚ := none
  toX : Option ℚ := none
  toY : Option ℚ := none
  inSec : Option ℚ := none
  outSec : Option ℚ := none
deriving DecidableEq

/-- A positioned object inside a scene (page.js `sc.objects` entries). -/
structure SceneObject where
  type : String
  id : Option String := none
  x : ℚ := 0
  y : ℚ := 0
  w : ℚ := 0
  h : ℚ := 0
  z : Option ℤ := none
  src : Option String := none
  text : Option String := none
  style : Option String := none
  animations : List Animation := []
deriving DecidableEq

/-- A scene of the `videoTrack` list; `start`/`stop` are the JSON `start`/`end`
fields in seconds (`end` is a Lean keyword). -/
structure Scene where
  start : ℚ
  stop : ℚ
  objects : List SceneObject := []
deriving DecidableEq

/-- A time-windowed overlay; a news-banner overlay is distinguished by the
presence of the `newsTitle` string. -/
structure Overlay where
  start : ℚ
  stop : ℚ
  src : Option String := none
  x : ℚ := 0
  y : ℚ := 0
  w : ℚ := 0
  h : ℚ := 0
  z : Option ℤ := none
  opacity : Option ℚ := none
  newsTitle : Option String := none
deriving DecidableEq

/-- A subtitle entry (`start`/`stop` in seconds). -/
structure Subtitle where
  start : ℚ
  stop : ℚ
  text : String
deriving DecidableEq

/-- The project model, restricted to the fields the resolver core reads. -/
structure Project where
  videoTrack : List Scene := []
  overlays : List Overlay := []
  subtitles : List Subtitle := []
deriving DecidableEq

/-- A resolved draw command, the element type of the list built by
`buildActiveObjects`.  Scene objects carry `scale`/`tx`/`ty`; overlay
commands leave them `undefined` (`none`). -/
structure DrawCmd where
  type : String
  id : Option String := none
  src : Option String := none
  x : ℚ
  y : ℚ
  w : ℚ
  h : ℚ
  z : ℤ
  a : ℚ
  scale : Option ℚ := none
  tx : Option ℚ := none
  ty : Option ℚ := none
  text : Option String := none
  style : Option String := none
deriving DecidableEq

/-- The mutable accumulator `(scale, tx, ty, alpha)` threaded through the
animation loop of `buildActiveObjects`. -/
structure AnimState where
  scale : ℚ
  tx : ℚ
  ty : ℚ
  alpha : ℚ
deriving DecidableEq

/-- `Easings[name](t)`: indexing the easing table and calling the result.
When the name is unknown the lookup yields `undefined` and the call throws
a TypeError, modelled as `Except.error`. -/
def applyEasing (name : String) (t : ℚ) : Except Unit ℚ :=
  match Easings name with
  | some f => Except.ok (f t)
  | none => Except.error ()

/-- One iteration of the `for (const anim of o.animations)` loop of
`buildActiveObjects`: the three `if` branches for `zoom`, `move` and
`fade`. -/
def animStep (localMs durMs : ℚ) (st : AnimState) (anim : Animation) :
    Except Unit AnimState := do
  let st ←
    if anim.type = "zoom" then do
      let t ← applyEasing (jsOrS anim.easing "linear") (min 1 (max 0 (localMs / durMs)))
      pure { st with scale := lerp (jsOrQ anim.fromN 1) (jsOrQ anim.toN 1) t }
    else pure st
  let st ←
    if anim.type = "move" then do
      let t ← applyEasing (jsOrS anim.easing "linear") (min 1 (max 0 (localMs / durMs)))
      pure { st with
              tx := lerp (jsOrQ anim.fromX 0) (jsOrQ anim.toX 0) t,
              ty := lerp (jsOrQ anim.fromY 0) (jsOrQ anim.toY 0) t }
    else pure st
  if anim.type = "fade" then
    pure { st with alpha := st.alpha * fadeAlpha localMs durMs (some ⟨anim.inSec, anim.outSec⟩) }
  else
    pure st

/-- The per-object body of the scene loop of `buildActiveObjects`: fold the
animations over the base transform `(1, 0, 0, 1)` and push the resolved
command. -/
def resolveObject (localMs durMs : ℚ) (o : SceneObject) : Except Unit DrawCmd := do
  let st ← o.animations.foldlM (animStep localMs durMs) ⟨1, 0, 0, 1⟩
  pure { type := o.type, id := o.id, src := o.src,
         x := o.x, y := o.y, w := o.w, h := o.h,
         z := jsOrZ o.z 0, a := st.alpha,
         scale := some st.scale, tx := some st.tx, ty := some st.ty,
         text := o.text, style := o.style }

/-- The scene window test of `buildActiveObjects`:
`if (ms < sc.start * 1000 || ms >= sc.end * 1000) continue`. -/
def sceneActive (sc : Scene) (ms : ℚ) : Bool :=
  decide (¬(ms < sc.start * 1000 ∨ ms ≥ sc.stop * 1000))

/-- The overlay window test of `buildActiveObjects`. -/
def overlayActive (ov : Overlay) (ms : ℚ) : Bool :=
  decide (¬(ms < ov.start * 1000 ∨ ms ≥ ov.stop * 1000))

/-- The scene half of `buildActiveObjects`: every active scene contributes
the resolved commands of all its objects, in list order. -/
def sceneCommands (p : Project) (ms : ℚ) : Except Unit (List DrawCmd) := do
  let lists ← (p.videoTrack.filter (fun sc => sceneActive sc ms)).mapM
    (fun sc => sc.objects.mapM
      (resolveObject (ms - sc.start * 1000) ((sc.stop - sc.start) * 1000)))
  pure lists.flatten

/-- The command pushed for an active overlay by `buildActiveObjects`
(page.js lines 415-427): always an image-type command, `z := ov.z || 100`,
`a := ov.opacity ?? 1`.  News-banner overlays take this path too. -/
def overlayPush (ov : Overlay) : DrawCmd :=
  { type := "image", src := ov.src, x := ov.x, y := ov.y, w := ov.w, h := ov.h,
    z := jsOrZ ov.z 100, a := ov.opacity.getD 1 }

/-- The overlay half of `buildActiveObjects`: push a command for every
overlay whose window contains `ms`. -/
def overlayCommands (p : Project) (ms : ℚ) : List DrawCmd :=
  p.overlays.foldl (fun acc ov => if overlayActive ov ms then acc ++ [overlayPush ov] else acc) []

/-- The sort comparator `(a, b) => (a.z || 0) - (b.z || 0)` as the Boolean
"less or equal" relation it induces (both `z` fields are materialised
integers by the time the list is sorted). -/
def zle (a b : DrawCmd) : Bool := decide (a.z ≤ b.z)

/-- `buildActiveObjects(project, ms)` of page.js: scene commands, then
overlay commands, stably sorted by `z` ascending (JavaScript
`Array.prototype.sort` is stable). -/
def buildActiveObjects (p : Project) (ms : ℚ) : Except Unit (List DrawCmd) := do
  let s ← sceneCommands p ms
  pure ((s ++ overlayCommands p ms).mergeSort zle)

/-- The subtitle selector of `renderFrameInternal`:
`project.subtitles.find(s => ms / 1000 >= s.start && ms / 1000 < s.end)`. -/
def findSubtitle (subs : List Subtitle) (ms : ℚ) : Option Subtitle :=
  subs.find? (fun s => decide (ms / 1000 ≥ s.start ∧ ms / 1000 < s.stop))

/-- The six phase durations computed by `drawNewsTitle`. -/
structure BannerDurs where
  grow : ℤ
  delay : ℤ
  textFade : ℤ
  hold : ℤ
  textOut : ℤ
  collapse : ℤ
deriving DecidableEq

/-- `defaultTotal` of `drawNewsTitle`: the sum of the nominal phase
durations `DEF.grow + DEF.delay + DEF.textFade + DEF.hold + DEF.textOut +
DEF.collapse = 300 + 100 + 200 + 4000 + 200 + 300 = 5100`.  (The spec
labels this sum `nominalTotal = 5300`, but the nominal values it lists
sum to `5100`.) -/
def defaultTotal : ℤ := 300 + 100 + 200 + 4000 + 200 + 300

/-- `scale` of `drawNewsTitle`: `available < defaultTotal ?
available / defaultTotal : 1`. -/
def bannerScale (available : ℤ) : ℚ :=
  if available < defaultTotal then (available : ℚ) / (defaultTotal : ℚ) else 1

/-- `growDur = Math.max(1, Math.round(DEF.grow * scale))`. -/
def growDur (available : ℤ) : ℤ := max 1 (jsRound (300 * bannerScale available))

/-- `textDelay = Math.max(0, Math.round(DEF.delay * scale))`. -/
def textDelay (available : ℤ) : ℤ := max 0 (jsRound (100 * bannerScale available))

/-- `textDur = Math.max(1, Math.round(DEF.textFade * scale))`. -/
def textDur (available : ℤ) : ℤ := max 1 (jsRound (200 * bannerScale available))

/-- `holdAfterText = Math.max(0, Math.round(DEF.hold * scale))`. -/
def holdAfterText (available : ℤ) : ℤ := max 0 (jsRound (4000 * bannerScale available))

/-- `textOutDur = Math.max(1, Math.round(DEF.textOut * scale))`. -/
def textOutDur (available : ℤ) : ℤ := max 1 (jsRound (200 * bannerScale available))

/-- Initial `collapseDur = Math.max(1, Math.round(DEF.collapse * scale))`,
before the residual correction. -/
def collapseDur0 (available : ℤ) : ℤ := max 1 (jsRound (300 * bannerScale available))

/-- `sumSoFar`: the sum of the six scaled phase durations before the
residual correction. -/
def sumSoFar (available : ℤ) : ℤ :=
  growDur available + textDelay available + textDur available +
    holdAfterText available + textOutDur available + collapseDur0 available

/-- The corrected `collapseDur`: `if (sumSoFar !== available) collapseDur +=
available - sumSoFar; if (collapseDur < 1) collapseDur = 1`. -/
def collapseDur (available : ℤ) : ℤ :=
  let c1 := if sumSoFar available ≠ available
    then collapseDur0 available + (available - sumSoFar available)
    else collapseDur0 available
  if c1 < 1 then 1 else c1

/-- The phase-duration computation of `drawNewsTitle` (page.js lines
640-657): nominal phases `grow=300, delay=100, textFade=200, hold=4000,
textOut=200, collapse=300`, each proportionally scaled and rounded when
`available < defaultTotal` (`grow`, `textFade`, `textOut` and `collapse`
floored to `≥ 1`, `delay` and `hold` to `≥ 0`), then the rounding
residual `available - sumSoFar` is added onto `collapse` whenever
`sumSoFar ≠ available`, and `collapse` is re-floored to `≥ 1`. -/
def bannerDurs (available : ℤ) : BannerDurs :=
  ⟨growDur available, textDelay available, textDur available,
    holdAfterText available, textOutDur available, collapseDur available⟩

/-- Total of the six banner phase durations. -/
def sumDurs (d : BannerDurs) : ℤ :=
  d.grow + d.delay + d.textFade + d.hold + d.textOut + d.collapse

/-- Sum of the five scaled non-collapse phases (the value `sumSoFar -
collapseDur0` of the source, which the residual correction leaves
untouched). -/
def scaledSum5 (available : ℤ) : ℤ :=
  (bannerDurs available).grow + (bannerDurs available).delay +
    (bannerDurs available).textFade + (bannerDurs available).hold +
    (bannerDurs available).textOut

/-- `totalDurationRel` of `drawNewsTitle`: the phase boundaries
accumulated from `startMs`. -/
def bannerTotal (available : ℤ) : ℤ :=
  let d := bannerDurs available
  d.grow + d.delay + d.textFade + d.hold + d.textOut + d.collapse

/-- The early-out guard of `drawNewsTitle`:
`if (local < 0 || local > totalDurationRel) return` — outside `[0, total]`
the banner draws nothing. -/
def bannerVisible (available localMs : ℤ) : Bool :=
  decide (¬(localMs < 0 ∨ localMs > bannerTotal available))

/-- JavaScript number results of the interpolation-parameter expression:
either a finite value or one of the IEEE-754 special values that
`local / dur` can produce when `dur` is not positive. -/
inductive JNum
  | num (q : ℚ)
  | posInf
  | negInf
  | nan
deriving DecidableEq

/-- JavaScript division `a / b` for finite operands (with `b` the
positive-zero `0` when it is zero, as produced by `(end-start)*1000`):
`0/0 = NaN`, `a/0 = ±Infinity` for `a ≠ 0`. -/
def jsDiv (a b : ℚ) : JNum :=
  if b = 0 then
    if a = 0 then JNum.nan else if 0 < a then JNum.posInf else JNum.negInf
  else JNum.num (a / b)

/-- JavaScript `Math.max(a, x)` with a finite first argument: NaN
propagates, infinities compare as expected. -/
def jsMax (a : ℚ) (x : JNum) : JNum :=
  match x with
  | JNum.num q => JNum.num (max a q)
  | JNum.posInf => JNum.posInf
  | JNum.negInf => JNum.num a
  | JNum.nan => JNum.nan

/-- JavaScript `Math.min(a, x)` with a finite first argument. -/
def jsMin (a : ℚ) (x : JNum) : JNum :=
  match x with
  | JNum.num q => JNum.num (min a q)
  | JNum.posInf => JNum.num a
  | JNum.negInf => JNum.negInf
  | JNum.nan => JNum.nan

/-- The interpolation-parameter expression of the animation loop
(page.js line 387), `Math.min(1, Math.max(0, local / dur))`, evaluated
with JavaScript number semantics so that its behaviour at `dur ≤ 0` is
visible. -/
def tParamJS (localMs durMs : ℚ) : JNum :=
  jsMin 1 (jsMax 0 (jsDiv localMs durMs))

/-- An audio track definition (`audio.tracks` entry in project.json):
source, offset in seconds, and volume either as `volumePercent` or as a
legacy `gain` in decibels. -/
structure ATrack where
  src : String
  offset : Option ℚ := none
  volumePercent : Option ℚ := none
  gain : Option ℚ := none
deriving DecidableEq

/-- `offsetMs = Math.round((t.offset || 0) * 1000)` (render.js line 500). -/
def offsetMs (t : ATrack) : ℤ := jsRound (jsOrQ t.offset 0 * 1000)

/-- The per-track volume fraction of render.js (lines 501-506):
`volumePercent/100` clamped below at `0` when `volumePercent` is a number,
else `10^(gain/20)` when `gain` is a *truthy* number (so `gain = 0` falls
through to the default), else `1.0`.  The value is the real number the
source then serialises with `toFixed(6)`; the 6-decimal formatting is
treated as part of the string serialisation, not of the graph. -/
noncomputable def volFrac (t : ATrack) : ℝ :=
  match t.volumePercent with
  | some vp => ((max 0 vp : ℚ) : ℝ) / 100
  | none =>
    match t.gain with
    | some g => if g = 0 then 1 else (10 : ℝ) ^ ((g : ℝ) / 20)
    | none => 1

/-- `dbToPercent(db) = Math.pow(10, db / 20) * 100` (mix-audio.js). -/
noncomputable def dbToPercent (db : ℚ) : ℝ := (10 : ℝ) ^ ((db : ℝ) / 20) * 100

/-- JavaScript `toFixed(6)` on a (nonnegative) rational: round to six
decimal places. -/
def toFixed6 (q : ℚ) : ℚ := (jsRound (q * 1000000) : ℚ) / 1000000

/-- `percentToFrac(p) = (Math.max(0, p) / 100).toFixed(6)` (mix-audio.js),
as the rational it denotes. -/
def percentToFrac (p : ℚ) : ℚ := toFixed6 (max 0 p / 100)

/-- One node of a per-track audio filter chain, abstracting the ffmpeg
filter syntax emitted by render.js (`adelay=L|R`, `volume=v`, `apad`). -/
inductive AFilt
  | adelay (left right : ℤ)
  | volume (gain : ℝ)
  | apad

/-- The per-track filter chain of render.js line 508:
`[i:a]adelay=offsetMs|offsetMs,volume=volFrac,apad[ai]`. -/
noncomputable def trackChain (t : ATrack) : List AFilt :=
  [AFilt.adelay (offsetMs t) (offsetMs t), AFilt.volume (volFrac t), AFilt.apad]

/-- The audio mix graph denoted by the `filter_complex` string render.js
assembles: the per-track chains, the `amix` combine stage and the final
`atrim` window. -/
structure MixGraph where
  chains : List (List AFilt)
  amixInputs : ℕ
  normalize : Bool
  durationLongest : Bool
  trimStart : ℚ
  trimEnd : ℚ

/-- The mix graph built by render.js (lines 497-515):
`trackFilters;[a0][a1]...amix=inputs=N:normalize=0:duration=longest,atrim=0:projectDuration[out]`,
abstracted from its string syntax to the filter structure it denotes. -/
noncomputable def filterComplex (tracks : List ATrack) (totalSec : ℚ) : MixGraph :=
  { chains := tracks.map trackChain
    amixInputs := tracks.length
    normalize := false
    durationLongest := true
    trimStart := 0
    trimEnd := totalSec }

/-- One track of the mix graph as §4.5 of the spec describes it. -/
structure SpecMixTrack where
  delayMs : ℤ
  gain : ℝ
  padded : Bool

/-- The declarative mix graph of §4.5/§6 of the spec. -/
structure SpecMixGraph where
  tracks : List SpecMixTrack
  combineIsSum : Bool
  combineNoNormalize : Bool
  combineDurationLongest : Bool
  trimStart : ℚ
  trimEnd : ℚ

/-- The volume conversion exactly as §4.5 step 1 of the spec words it:
`fraction = volumePercent/100` when `volumePercent` is a number, else
`10^(gainDb/20)` when a gain is given, else `1.0`; fractions below `0`
clamp to `0`.  This definition follows the spec's words; it is compared
against the source-derived `volFrac`. -/
noncomputable def specFraction (t : ATrack) : ℝ :=
  match t.volumePercent with
  | some vp => max 0 ((vp : ℝ) / 100)
  | none =>
    match t.gain with
    | some g => (10 : ℝ) ^ ((g : ℝ) / 20)
    | none => 1

/-- The mix graph as §4.5 steps 2-4 of the spec word it: each track
delayed by `round(offsetSeconds*1000)` ms, scaled by its fraction,
padded; tracks summed with no normalization and duration = longest;
result trimmed to `[0, targetDuration]`.  This definition follows the
spec's words; it is compared against the source-derived
`filterComplex`. -/
noncomputable def specMixGraph (tracks : List ATrack) (target : ℚ) : SpecMixGraph :=
  { tracks := tracks.map (fun t =>
      { delayMs := jsRound (jsOrQ t.offset 0 * 1000)
        gain := specFraction t
        padded := true })
    combineIsSum := true
    combineNoNormalize := true
    combineDurationLongest := true
    trimStart := 0
    trimEnd := target }

example : fadeAlpha 0 1000 (some ⟨some (1/2), none⟩) = 0 := by
  norm_num [fadeAlpha, jsOrQ]
example : fadeAlpha 250 1000 (some ⟨some (1/2), none⟩) = 1/2 := by
  norm_num [fadeAlpha, jsOrQ]
example : fadeAlpha 1000 1000 (some ⟨none, some (1/2)⟩) = 0 := by
  norm_num [fadeAlpha, jsOrQ]
example : sumDurs (bannerDurs 1) = 5 := by
  simp only [sumDurs, bannerDurs, growDur, textDelay, textDur, holdAfterText,
    textOutDur, collapseDur, collapseDur0, sumSoFar, bannerScale, defaultTotal]
  norm_num [jsRound]
example : (bannerDurs 5300).collapse = 500 := by
  simp only [bannerDurs, growDur, textDelay, textDur, holdAfterText,
    textOutDur, collapseDur, collapseDur0, sumSoFar, bannerScale, defaultTotal]
  norm_num [jsRound]
example : bannerDurs 5100 = ⟨300, 100, 200, 4000, 200, 300⟩ := by
  simp only [bannerDurs, growDur, textDelay, textDur, holdAfterText,
    textOutDur, collapseDur, collapseDur0, sumSoFar, bannerScale, defaultTotal]
  norm_num [jsRound]

/-- Claim C8: fadeAlpha reference values — `fadeAlpha(0, 1000, {in:0.5}) = 0`,
`fadeAlpha(250, 1000, {in:0.5}) = 0.5`, `fadeAlpha(1000, 1000, {out:0.5}) = 0`;
and in general fadeAlpha returns `local/finMs` during the fade-in window
`[0, finMs)`, `(dur-local)/foutMs` clamped to `≥ 0` during the fade-out
window, and `1` otherwise. -/
theorem c8_fadeAlpha (localT durMs : ℚ) (f : FadeSpec) :
    fadeAlpha 0 1000 (some ⟨some (1/2), none⟩) = 0
    ∧ fadeAlpha 250 1000 (some ⟨some (1/2), none⟩) = 1/2
    ∧ fadeAlpha 1000 1000 (some ⟨none, some (1/2)⟩) = 0
    ∧ (0 < jsOrQ f.inSec 0 * 1000 → 0 ≤ localT → localT < jsOrQ f.inSec 0 * 1000 →
        fadeAlpha localT durMs (some f) = localT / (jsOrQ f.inSec 0 * 1000))
    ∧ (¬(0 < jsOrQ f.inSec 0 * 1000 ∧ localT < jsOrQ f.inSec 0 * 1000) →
        0 < jsOrQ f.outSec 0 * 1000 → durMs - jsOrQ f.outSec 0 * 1000 < localT →
        fadeAlpha localT durMs (some f) = max 0 ((durMs - localT) / (jsOrQ f.outSec 0 * 1000)))
    ∧ (¬(0 < jsOrQ f.inSec 0 * 1000 ∧ localT < jsOrQ f.inSec 0 * 1000) →
        ¬(0 < jsOrQ f.outSec 0 * 1000 ∧ durMs - jsOrQ f.outSec 0 * 1000 < localT) →
        fadeAlpha localT durMs (some f) = 1) := by
  refine ⟨by norm_num [fadeAlpha, jsOrQ], by norm_num [fadeAlpha, jsOrQ],
    by norm_num [fadeAlpha, jsOrQ], ?_, ?_, ?_⟩
  · intro h1 _ h3
    simp only [fadeAlpha]
    rw [if_pos ⟨h1, h3⟩]
  · intro hnin h1 h2
    simp only [fadeAlpha]
    rw [if_neg hnin, if_pos ⟨h1, h2⟩]
  · intro hnin hnout
    simp only [fadeAlpha]
    rw [if_neg hnin, if_neg hnout]

/-- Witness for C8: the general fade-in clause evaluated at
`localT = 300`, `durMs = 1000`, `fade = {in: 1}`. -/
theorem c8_witness :
    fadeAlpha 300 1000 (some ⟨some 1, none⟩) = 300 / (jsOrQ (some 1) 0 * 1000) :=
  (c8_fadeAlpha 300 1000 ⟨some 1, none⟩).2.2.2.1
    (by norm_num [jsOrQ]) (by norm_num) (by norm_num [jsOrQ])

/-- Claim C10 (implicit): for every fade specification with nonnegative
`in`/`out` values and every `localT` with `0 ≤ localT ≤ durMs`,
`fadeAlpha` returns a value in `[0, 1]`. -/
theorem c10_fadeAlpha_range (localT durMs : ℚ) (f : FadeSpec)
    (hin : 0 ≤ jsOrQ f.inSec 0) (hout : 0 ≤ jsOrQ f.outSec 0)
    (h0 : 0 ≤ localT) (h1 : localT ≤ durMs) :
    0 ≤ fadeAlpha localT durMs (some f) ∧ fadeAlpha localT durMs (some f) ≤ 1 := by
  simp only [fadeAlpha]
  split_ifs with hfi hfo
  · exact ⟨div_nonneg h0 (le_of_lt hfi.1), (div_le_one hfi.1).mpr (le_of_lt hfi.2)⟩
  · refine ⟨le_max_left 0 _, max_le (by norm_num) ((div_le_one hfo.1).mpr ?_)⟩
    have := hfo.2
    linarith
  · norm_num

/-- Witness for C10: the bound evaluated at `localT = 100`, `durMs = 1000`,
`fade = {in: 0.5, out: 0.5}`. -/
theorem c10_witness :
    0 ≤ fadeAlpha 100 1000 (some ⟨some (1/2), some (1/2)⟩)
    ∧ fadeAlpha 100 1000 (some ⟨some (1/2), some (1/2)⟩) ≤ 1 :=
  c10_fadeAlpha_range 100 1000 ⟨some (1/2), some (1/2)⟩
    (by norm_num [jsOrQ]) (by norm_num [jsOrQ]) (by norm_num) (by norm_num)

/-- The source volume conversion agrees pointwise with the conversion as
the spec words it (the `gain = 0` truthiness fall-through of the source
coincides with `10^0 = 1`, and the clamp commutes with the division). -/
theorem volFrac_eq_specFraction (t : ATrack) : volFrac t = specFraction t := by
  unfold volFrac specFraction
  cases t.volumePercent with
  | some vp =>
    push_cast
    rcases le_total ((vp : ℝ)) 0 with h | h
    · rw [max_eq_left h, max_eq_left (by linarith)]
      norm_num
    · rw [max_eq_right h, max_eq_right (by linarith)]
  | none =>
    cases t.gain with
    | some g =>
      by_cases hg : g = 0
      · subst hg
        norm_num
      · simp [hg]
    | none => rfl

/-- Bounds for `10^(-6/20)` used by the decibel reference value: both ends
follow from `(10^(3/10))^10 = 1000` squeezed between `1.9921^10` and
`1.9964^10`. -/
theorem rpow_neg_six_twentieth_bounds :
    (1/2 : ℝ) < (10 : ℝ) ^ ((-6 : ℝ) / 20) ∧ (10 : ℝ) ^ ((-6 : ℝ) / 20) < 502/1000 := by
  have hexp : ((-6 : ℝ) / 20) = -((3 : ℝ)/10) := by norm_num
  have ha0 : (0 : ℝ) < (10 : ℝ) ^ ((3 : ℝ)/10) := Real.rpow_pos_of_pos (by norm_num) _
  have ha10 : ((10 : ℝ) ^ ((3 : ℝ)/10)) ^ (10 : ℕ) = 1000 := by
    rw [← Real.rpow_natCast ((10 : ℝ) ^ ((3 : ℝ)/10)) 10,
      ← Real.rpow_mul (by norm_num : (0:ℝ) ≤ 10)]
    norm_num
  have hlow : (19921/10000 : ℝ) < (10 : ℝ) ^ ((3 : ℝ)/10) := by
    have hp : ((19921/10000 : ℝ)) ^ (10 : ℕ) < ((10 : ℝ) ^ ((3 : ℝ)/10)) ^ (10 : ℕ) := by
      rw [ha10]
      norm_num
    exact lt_of_pow_lt_pow_left₀ 10 (le_of_lt ha0) hp
  have hhigh : (10 : ℝ) ^ ((3 : ℝ)/10) < (19964/10000 : ℝ) := by
    have hp : ((10 : ℝ) ^ ((3 : ℝ)/10)) ^ (10 : ℕ) < ((19964/10000 : ℝ)) ^ (10 : ℕ) := by
      rw [ha10]
      norm_num
    exact lt_of_pow_lt_pow_left₀ 10 (by norm_num) hp
  rw [hexp, Real.rpow_neg (by norm_num : (0:ℝ) ≤ 10)]
  have h1 : ((10 : ℝ) ^ ((3 : ℝ)/10))⁻¹ < (19921/10000 : ℝ)⁻¹ :=
    inv_strictAnti₀ (by norm_num) hlow
  have h2 : (19964/10000 : ℝ)⁻¹ < ((10 : ℝ) ^ ((3 : ℝ)/10))⁻¹ :=
    inv_strictAnti₀ ha0 hhigh
  constructor
  · have : (1/2 : ℝ) < (19964/10000 : ℝ)⁻¹ := by norm_num
    linarith
  · have : (19921/10000 : ℝ)⁻¹ < 502/1000 := by norm_num
    linarith

/-- Claim C9: volume conversion — the linear amplitude fraction equals
`volumePercent/100` when `volumePercent` is a number, else `10^(gainDb/20)`
when a gain in decibels is given, else `1.0`; fractions below `0` clamp to
`0`; in particular `volumePercent = 50` yields `0.5`, `gainDb = -6` yields
approximately `0.501`, and `gainDb = 0` yields `1.0`. -/
theorem c9_volume_conversion :
    (∀ t : ATrack, volFrac t = specFraction t)
    ∧ (∀ t : ATrack, 0 ≤ volFrac t)
    ∧ volFrac { src := "music.mp3", volumePercent := some 50 } = 1/2
    ∧ percentToFrac 50 = 1/2
    ∧ |volFrac { src := "music.mp3", gain := some (-6) } - 501/1000| < 1/1000
    ∧ volFrac { src := "music.mp3", gain := some 0 } = 1 := by
  refine ⟨volFrac_eq_specFraction, ?_, ?_, ?_, ?_, ?_⟩
  · intro t
    rw [volFrac_eq_specFraction]
    unfold specFraction
    cases t.volumePercent with
    | some vp => exact le_max_left 0 _
    | none =>
      cases t.gain with
      | some g => exact Real.rpow_nonneg (by norm_num) _
      | none => norm_num
  · norm_num [volFrac]
  · norm_num [percentToFrac, toFixed6, jsRound]
  · have hx : volFrac { src := "music.mp3", gain := some (-6) }
        = (10 : ℝ) ^ ((-6 : ℝ) / 20) := by
      norm_num [volFrac]
    rw [hx]
    rcases rpow_neg_six_twentieth_bounds with ⟨hlo, hhi⟩
    rw [abs_lt]
    constructor
    · linarith
    · linarith
  · norm_num [volFrac]

/-- Counterexample to claim C1 as stated: at `available = 1` the re-floor
of `collapse` makes the six durations sum to `5`, not `1`; and at
`available = 5300` (which the claim calls `nominalTotal`, although the
nominal phases sum to `5100`) the residual correction stretches
`collapse` to `500`, so the durations do not equal the nominal values. -/
theorem c1_counterexample :
    ((1 : ℤ) ≤ 1 ∧ (1 : ℤ) ≤ 5300 ∧ sumDurs (bannerDurs 1) = 5 ∧ sumDurs (bannerDurs 1) ≠ 1)
    ∧ ((5300 : ℤ) ≤ 5300 ∧ (bannerDurs 5300).collapse = 500 ∧ (bannerDurs 5300).collapse ≠ 300) := by
  have h1 : sumDurs (bannerDurs 1) = 5 := by
    simp only [sumDurs, bannerDurs, growDur, textDelay, textDur, holdAfterText,
      textOutDur, collapseDur, collapseDur0, sumSoFar, bannerScale, defaultTotal]
    norm_num [jsRound]
  have h2 : (bannerDurs 5300).collapse = 500 := by
    simp only [bannerDurs, growDur, textDelay, textDur, holdAfterText,
      textOutDur, collapseDur, collapseDur0, sumSoFar, bannerScale, defaultTotal]
    norm_num [jsRound]
  refine ⟨⟨le_refl 1, by norm_num, h1, by omega⟩, ⟨le_refl 5300, h2, by omega⟩⟩

/-- Claim C1 (amended): for every `available ≥ 1` the six banner phase
durations sum to `max available (scaledSum5 + 1)` — they sum exactly to
`available` precisely when the residual-corrected collapse stays `≥ 1`
(which fails for a handful of very small `available`); the code's nominal
total is `5100` (not the spec's `5300`), and for `available ≥ 5100` the
five non-collapse phases keep their nominal values while `collapse`
absorbs the whole remainder `available - 5100`, so the computed total
equals `available` and the banner stays active until the end of its
window; nothing is drawn after the computed total. -/
theorem c1_banner_durations (a localMs : ℤ) :
    (1 ≤ a → sumDurs (bannerDurs a) = max a (scaledSum5 a + 1))
    ∧ (defaultTotal ≤ a →
        (bannerDurs a).grow = 300 ∧ (bannerDurs a).delay = 100
        ∧ (bannerDurs a).textFade = 200 ∧ (bannerDurs a).hold = 4000
        ∧ (bannerDurs a).textOut = 200
        ∧ (bannerDurs a).collapse = 300 + (a - defaultTotal)
        ∧ bannerTotal a = a)
    ∧ (bannerTotal a < localMs → bannerVisible a localMs = false) := by
  refine ⟨?_, ?_, ?_⟩
  · intro _
    have hg : 1 ≤ growDur a := le_max_left _ _
    have hd : 0 ≤ textDelay a := le_max_left _ _
    have ht : 1 ≤ textDur a := le_max_left _ _
    have hh : 0 ≤ holdAfterText a := le_max_left _ _
    have ho : 1 ≤ textOutDur a := le_max_left _ _
    have hc0 : 1 ≤ collapseDur0 a := le_max_left _ _
    simp only [sumDurs, bannerDurs, scaledSum5]
    unfold collapseDur
    simp only [sumSoFar]
    split_ifs <;> omega
  · intro hge
    have hsc : bannerScale a = 1 := by
      unfold bannerScale
      rw [if_neg (by omega)]
    have hg : growDur a = 300 := by
      unfold growDur
      rw [hsc]
      norm_num [jsRound]
    have hd : textDelay a = 100 := by
      unfold textDelay
      rw [hsc]
      norm_num [jsRound]
    have ht : textDur a = 200 := by
      unfold textDur
      rw [hsc]
      norm_num [jsRound]
    have hh : holdAfterText a = 4000 := by
      unfold holdAfterText
      rw [hsc]
      norm_num [jsRound]
    have ho : textOutDur a = 200 := by
      unfold textOutDur
      rw [hsc]
      norm_num [jsRound]
    have hc0 : collapseDur0 a = 300 := by
      unfold collapseDur0
      rw [hsc]
      norm_num [jsRound]
    have hsum : sumSoFar a = 5100 := by
      unfold sumSoFar
      rw [hg, hd, ht, hh, ho, hc0]
      norm_num
    have hcol : collapseDur a = 300 + (a - defaultTotal) := by
      unfold collapseDur
      rw [hsum, hc0]
      simp only [defaultTotal] at hge ⊢
      split_ifs <;> omega
    refine ⟨hg, hd, ht, hh, ho, hcol, ?_⟩
    simp only [bannerTotal, bannerDurs, defaultTotal] at *
    omega
  · intro hl
    simp only [bannerVisible, decide_eq_false_iff_not, not_not]
    exact Or.inr hl

/-- Witness for C1: the sum formula applied at `available = 100`, and the
nominal/absorption clause and visibility guard applied at
`available = 6000`. -/
theorem c1_witness :
    sumDurs (bannerDurs 100) = max 100 (scaledSum5 100 + 1)
    ∧ (bannerDurs 6000).collapse = 300 + (6000 - defaultTotal)
    ∧ bannerVisible 6000 6001 = false := by
  refine ⟨(c1_banner_durations 100 0).1 (by norm_num), ?_, ?_⟩
  · exact ((c1_banner_durations 6000 0).2.1 (by norm_num [defaultTotal])).2.2.2.2.2.1
  · have htot : bannerTotal 6000 = 6000 :=
      ((c1_banner_durations 6000 0).2.1 (by norm_num [defaultTotal])).2.2.2.2.2.2
    exact (c1_banner_durations 6000 6001).2.2 (by rw [htot]; norm_num)

/-- Claim C2: audio mix graph construction — for every non-empty track
list and target duration, the graph render.js builds delays each track by
`round(offsetSeconds*1000)` ms equally on both channels, scales it by its
volume fraction, pads it with silence, sums all tracks with no
normalization and duration = longest, and trims the result to
`[0, targetDuration]` seconds: it coincides with the declarative mix
graph of §4.5 of the spec. -/
theorem c2_mix_graph (tracks : List ATrack) (totalSec : ℚ) (hne : tracks ≠ []) :
    (filterComplex tracks totalSec).chains
      = (specMixGraph tracks totalSec).tracks.map
          (fun s => [AFilt.adelay s.delayMs s.delayMs, AFilt.volume s.gain, AFilt.apad])
    ∧ (∀ s ∈ (specMixGraph tracks totalSec).tracks, s.padded = true)
    ∧ (filterComplex tracks totalSec).amixInputs = tracks.length
    ∧ (filterComplex tracks totalSec).normalize = false
    ∧ (filterComplex tracks totalSec).durationLongest = true
    ∧ (specMixGraph tracks totalSec).combineIsSum = true
    ∧ (filterComplex tracks totalSec).trimStart = 0
    ∧ (filterComplex tracks totalSec).trimEnd = totalSec
    ∧ (specMixGraph tracks totalSec).trimStart = 0
    ∧ (specMixGraph tracks totalSec).trimEnd = totalSec := by
  refine ⟨?_, ?_, rfl, rfl, rfl, rfl, rfl, rfl, rfl, rfl⟩
  · simp only [filterComplex, specMixGraph, List.map_map]
    refine List.map_congr_left ?_
    intro t _
    simp only [Function.comp_apply, trackChain, offsetMs, volFrac_eq_specFraction]
  · intro s hs
    simp only [specMixGraph, List.mem_map] at hs
    obtain ⟨t, _, rfl⟩ := hs
    rfl

/-- Witness for C2: the chain correspondence for a single track with
offset 2 s and volume 50 %, trimmed to 30 s. -/
theorem c2_witness :
    (filterComplex [⟨"a.mp3", some 2, some 50, none⟩] 30).chains
      = (specMixGraph [⟨"a.mp3", some 2, some 50, none⟩] 30).tracks.map
          (fun s => [AFilt.adelay s.delayMs s.delayMs, AFilt.volume s.gain, AFilt.apad]) :=
  (c2_mix_graph [⟨"a.mp3", some 2, some 50, none⟩] 30 (List.cons_ne_nil _ _)).1

/-- A project whose single scene object carries a `zoom` animation with
the unknown easing name `"bounce"`. -/
def projBounce : Project :=
  { videoTrack := [
      { start := 0, stop := 10,
        objects := [
          { type := "image", src := some "a.png",
            animations := [
              { type := "zoom", easing := some "bounce",
                fromN := some 1, toN := some (3/2) } ] } ] } ] }

/-- Claim C4, evaluated at the failing input: the easing table lookup for
`"bounce"` yields `undefined`, and resolving a frame inside the scene
window aborts with the TypeError of calling `undefined` — the resolver
does *not* fall back to `linear`. -/
theorem c4_unknown_easing :
    Easings "bounce" = none
    ∧ buildActiveObjects projBounce 500 = Except.error () := by
  constructor
  · rfl
  · have hf : projBounce.videoTrack.filter (fun sc => sceneActive sc 500)
        = projBounce.videoTrack := by
      norm_num [projBounce, sceneActive]
    have h1 : sceneCommands projBounce 500 = Except.error () := by
      unfold sceneCommands
      rw [hf]
      rfl
    unfold buildActiveObjects
    rw [h1]
    rfl

/-- The push-loop over overlays is the filter of the active ones mapped
through the push. -/
theorem foldl_push_eq_filter_map (l : List Overlay) (ms : ℚ) (acc : List DrawCmd) :
    l.foldl (fun acc ov => if overlayActive ov ms then acc ++ [overlayPush ov] else acc) acc
      = acc ++ (l.filter (fun ov => overlayActive ov ms)).map overlayPush := by
  induction l generalizing acc with
  | nil => simp
  | cons ov l ih =>
    simp only [List.foldl_cons, List.filter_cons]
    by_cases h : overlayActive ov ms
    · rw [if_pos h, ih]
      simp [h]
    · rw [if_neg h, ih]
      simp [h]

/-- `overlayCommands` emits exactly one command per in-window overlay, in
list order. -/
theorem overlayCommands_eq_filter_map (p : Project) (ms : ℚ) :
    overlayCommands p ms
      = (p.overlays.filter (fun ov => overlayActive ov ms)).map overlayPush := by
  unfold overlayCommands
  simpa using foldl_push_eq_filter_map p.overlays ms []

/-- A news-banner overlay (no `src`, carrying a `newsTitle`). -/
def ovNews : Overlay := { start := 0, stop := 10, newsTitle := some "Breaking news" }

/-- A generic overlay whose `z` is explicitly specified as `0`. -/
def ovZ0 : Overlay :=
  { start := 0, stop := 10, src := some "logo.png", z := some 0, opacity := some (1/2) }

/-- A project carrying the two overlays above and nothing else. -/
def projC5 : Project := { overlays := [ovNews, ovZ0] }

/-- Counterexample to claim C5 as stated: at `ms = 500` the overlay loop
emits a command for the news-banner overlay too (it is *not* excluded),
and the overlay whose `z` is specified as `0` receives `z = 100` because
`ov.z || 100` treats `0` as unspecified. -/
theorem c5_counterexample :
    (ovZ0.z = some 0 ∧ (overlayPush ovZ0).z = 100)
    ∧ (ovNews.newsTitle = some "Breaking news"
        ∧ overlayCommands projC5 500 = [overlayPush ovNews, overlayPush ovZ0]) := by
  refine ⟨⟨rfl, rfl⟩, rfl, ?_⟩
  rw [overlayCommands_eq_filter_map]
  norm_num [projC5, overlayActive, ovNews, ovZ0]

/-- Claim C5 (amended): every overlay whose window contains `ms` —
*including* news-banner overlays — yields exactly one image-type draw
command carrying the overlay's geometry and `alpha = opacity ?? 1`; the
command's `z` equals the overlay's `z` when it is specified and nonzero,
and defaults to `100` when it is unspecified *or specified as `0`* (the
JavaScript `||` default). -/
theorem c5_overlay_emission (p : Project) (ms : ℚ) (ov : Overlay)
    (hmem : ov ∈ p.overlays) (hwin : overlayActive ov ms = true) :
    overlayCommands p ms
      = (p.overlays.filter (fun o => overlayActive o ms)).map overlayPush
    ∧ overlayPush ov ∈ overlayCommands p ms
    ∧ (overlayPush ov).type = "image"
    ∧ (overlayPush ov).src = ov.src
    ∧ (overlayPush ov).x = ov.x ∧ (overlayPush ov).y = ov.y
    ∧ (overlayPush ov).w = ov.w ∧ (overlayPush ov).h = ov.h
    ∧ (overlayPush ov).a = ov.opacity.getD 1
    ∧ (∀ zv : ℤ, ov.z = some zv → zv ≠ 0 → (overlayPush ov).z = zv)
    ∧ ((ov.z = none ∨ ov.z = some 0) → (overlayPush ov).z = 100) := by
  refine ⟨overlayCommands_eq_filter_map p ms, ?_, rfl, rfl, rfl, rfl, rfl, rfl, rfl, ?_, ?_⟩
  · rw [overlayCommands_eq_filter_map]
    exact List.mem_map_of_mem _ (List.mem_filter.mpr ⟨hmem, hwin⟩)
  · intro zv hz hzne
    simp [overlayPush, jsOrZ, hz, hzne]
  · intro h
    rcases h with h | h <;> simp [overlayPush, jsOrZ, h]

/-- Witness for C5: the amended emission applied to the `z = 0` overlay of
the two-overlay project at `ms = 500`. -/
theorem c5_witness :
    overlayPush ovZ0 ∈ overlayCommands projC5 500 ∧ (overlayPush ovZ0).z = 100 := by
  have h := c5_overlay_emission projC5 500 ovZ0
    (List.mem_cons_of_mem _ (List.mem_cons_self _ _))
    (by norm_num [overlayActive, ovZ0])
  obtain ⟨-, hmem, -, -, -, -, -, -, -, -, hzdef⟩ := h
  exact ⟨hmem, hzdef (Or.inr rfl)⟩

/-- Counterexample to claim C6 as stated: the interpolation-parameter
expression contains no `dur ≤ 0` guard.  Evaluated with JavaScript number
semantics at `dur = 0, local = 0` it yields `NaN` (not `t = 1`), and at
`dur = -1000, local = 1` it yields `t = 0` (not `t = 1`). -/
theorem c6_counterexample :
    tParamJS 0 0 = JNum.nan
    ∧ tParamJS 1 (-1000) = JNum.num 0
    ∧ JNum.nan ≠ JNum.num 1
    ∧ JNum.num (0 : ℚ) ≠ JNum.num 1 := by
  refine ⟨rfl, ?_, by simp, by simp⟩
  unfold tParamJS jsDiv
  rw [if_neg (by norm_num)]
  simp only [jsMax, jsMin, JNum.num.injEq]
  norm_num [max_def, min_def]

/-- Claim C6 (amended): the resolver never evaluates an animation at
`dur ≤ 0` in the first place — any scene that passes the half-open window
test `ms/1000 ∈ [start, end)` has `(end - start) * 1000 > 0` — so inside
the resolver the parameter expression always takes the finite value
`min 1 (max 0 (local / dur))` and never divides by zero or produces
`NaN`; there is no `t = 1` fallback in the code. -/
theorem c6_window_guard (sc : Scene) (ms : ℚ) (h : sceneActive sc ms = true) :
    0 < (sc.stop - sc.start) * 1000
    ∧ ∀ localMs : ℚ,
        tParamJS localMs ((sc.stop - sc.start) * 1000)
          = JNum.num (min 1 (max 0 (localMs / ((sc.stop - sc.start) * 1000)))) := by
  have hP : ¬(ms < sc.start * 1000 ∨ ms ≥ sc.stop * 1000) := of_decide_eq_true h
  push_neg at hP
  have hpos : 0 < (sc.stop - sc.start) * 1000 := by
    have h1 := hP.1
    have h2 := hP.2
    nlinarith
  refine ⟨hpos, ?_⟩
  intro localMs
  unfold tParamJS jsDiv
  rw [if_neg (ne_of_gt hpos)]
  rfl

/-- Witness for C6: the window guard applied to the scene `[0 s, 1 s)` at
`ms = 500`. -/
theorem c6_witness :
    0 < (((1 : ℚ) - 0) * 1000)
    ∧ tParamJS 500 (((1 : ℚ) - 0) * 1000)
        = JNum.num (min 1 (max 0 (500 / (((1 : ℚ) - 0) * 1000)))) := by
  have h := c6_window_guard ⟨0, 1, []⟩ 500 (by norm_num [sceneActive])
  exact ⟨h.1, h.2 500⟩

/-- A successful `find?` is the first match: the list splits into an
all-failing prefix, the found element, and a tail. -/
theorem find?_first_match {α : Type} (p : α → Bool) (l : List α) (a : α)
    (h : l.find? p = some a) :
    ∃ pre post, l = pre ++ a :: post ∧ ∀ x ∈ pre, ¬ p x := by
  induction l with
  | nil => simp at h
  | cons b l ih =>
    by_cases hb : p b
    · rw [List.find?_cons_of_pos _ hb] at h
      obtain rfl : b = a := by simpa using h
      exact ⟨[], l, rfl, by simp⟩
    · rw [List.find?_cons_of_neg _ hb] at h
      obtain ⟨pre, post, rfl, hpre⟩ := ih h
      refine ⟨b :: pre, post, rfl, ?_⟩
      intro x hx
      rcases List.mem_cons.mp hx with rfl | hx
      · exact hb
      · exact hpre x hx

/-- `Except.ok a >>= f` reduces to `f a`. -/
theorem exceptBindOk {e a b : Type} (x : a) (f : a → Except e b) :
    ((Except.ok x : Except e a) >>= f) = f x := rfl

/-- Claim C7: out-of-window emptiness — for every `ms` outside every Scene
window and every Overlay window the resolver returns the empty draw list;
for every `ms` outside every Subtitle window the subtitle selector
returns `none`, and when it returns a subtitle, that subtitle is the
first in list order whose half-open window contains `ms/1000` (and such a
subtitle is found whenever one exists). -/
theorem c7_out_of_window (p : Project) (ms : ℚ) :
    ((∀ sc ∈ p.videoTrack, ms < sc.start * 1000 ∨ ms ≥ sc.stop * 1000) →
     (∀ ov ∈ p.overlays, ms < ov.start * 1000 ∨ ms ≥ ov.stop * 1000) →
      buildActiveObjects p ms = Except.ok [])
    ∧ ((∀ s ∈ p.subtitles, ¬(ms / 1000 ≥ s.start ∧ ms / 1000 < s.stop)) →
        findSubtitle p.subtitles ms = none)
    ∧ (∀ s : Subtitle, findSubtitle p.subtitles ms = some s →
        (ms / 1000 ≥ s.start ∧ ms / 1000 < s.stop)
        ∧ ∃ pre post, p.subtitles = pre ++ s :: post
            ∧ ∀ x ∈ pre, ¬(ms / 1000 ≥ x.start ∧ ms / 1000 < x.stop))
    ∧ ((∃ s ∈ p.subtitles, ms / 1000 ≥ s.start ∧ ms / 1000 < s.stop) →
        ∃ s, findSubtitle p.subtitles ms = some s) := by
  refine ⟨?_, ?_, ?_, ?_⟩
  · intro hs ho
    have hfs : p.videoTrack.filter (fun sc => sceneActive sc ms) = [] := by
      rw [List.filter_eq_nil_iff]
      intro sc hsc
      simp only [sceneActive, decide_eq_true_eq, not_not]
      exact hs sc hsc
    have hfo : p.overlays.filter (fun ov => overlayActive ov ms) = [] := by
      rw [List.filter_eq_nil_iff]
      intro ov hov
      simp only [overlayActive, decide_eq_true_eq, not_not]
      exact ho ov hov
    have hoc : overlayCommands p ms = [] := by
      rw [overlayCommands_eq_filter_map, hfo]
      rfl
    have hsc : sceneCommands p ms = Except.ok [] := by
      unfold sceneCommands
      rw [hfs]
      rfl
    unfold buildActiveObjects
    rw [hsc, hoc]
    rw [exceptBindOk]
    simp
    rfl
  · intro hsub
    unfold findSubtitle
    rw [List.find?_eq_none]
    intro s hs
    simpa using hsub s hs
  · intro s hfind
    have hp := List.find?_some hfind
    have hmem : s ∈ p.subtitles := List.mem_of_find?_eq_some hfind
    constructor
    · simpa using hp
    · obtain ⟨pre, post, heq, hpre⟩ := find?_first_match _ _ _ hfind
      refine ⟨pre, post, heq, ?_⟩
      intro x hx
      simpa using hpre x hx
  · intro hex
    have : (p.subtitles.find? (fun s => decide (ms / 1000 ≥ s.start ∧ ms / 1000 < s.stop))).isSome := by
      rw [List.find?_isSome]
      obtain ⟨s, hs, hwin⟩ := hex
      exact ⟨s, hs, by simpa using hwin⟩
    obtain ⟨s, hs⟩ := Option.isSome_iff_exists.mp this
    exact ⟨s, hs⟩

/-- A project whose only scene, overlay and subtitle all occupy the
window `[1 s, 2 s)`. -/
def proj7 : Project :=
  { videoTrack := [⟨1, 2, []⟩]
    overlays := [{ start := 1, stop := 2, src := some "logo.png" }]
    subtitles := [⟨1, 2, "hello"⟩] }

/-- Witness for C7: at `ms = 0`, outside all windows of `proj7`, the draw
list is empty and no subtitle is selected. -/
theorem c7_witness :
    buildActiveObjects proj7 0 = Except.ok []
    ∧ findSubtitle proj7.subtitles 0 = none := by
  have h := c7_out_of_window proj7 0
  refine ⟨h.1 ?_ ?_, h.2.1 ?_⟩
  · intro sc hsc
    simp only [proj7, List.mem_singleton] at hsc
    subst hsc
    norm_num
  · intro ov hov
    simp only [proj7, List.mem_singleton] at hov
    subst hov
    norm_num
  · intro s hs
    simp only [proj7, List.mem_singleton] at hs
    subst hs
    norm_num

/-- `Except.error e >>= f` reduces to `Except.error e`. -/
theorem exceptBindError {e a b : Type} (x : e) (f : a → Except e b) :
    ((Except.error x : Except e a) >>= f) = Except.error x := rfl

/-- The comparator relation is transitive. -/
theorem zle_trans (a b c : DrawCmd) (h1 : zle a b) (h2 : zle b c) : zle a c := by
  simp only [zle, decide_eq_true_eq] at *
  omega

/-- The comparator relation is total. -/
theorem zle_total (a b : DrawCmd) : zle a b || zle b a := by
  simp only [zle]
  rcases le_total a.z b.z with h | h <;> simp [h]

/-- Stability of the sort, phrased through filters: restricting the sorted
list to any fixed `z` value gives exactly the corresponding restriction of
the input list, in input order. -/
theorem mergeSort_filter_z (l : List DrawCmd) (k : ℤ) :
    (l.mergeSort zle).filter (fun c => decide (c.z = k))
      = l.filter (fun c => decide (c.z = k)) := by
  have hsub : List.Sublist (l.filter (fun c => decide (c.z = k))) l := List.filter_sublist _
  have hmem : ∀ c ∈ l.filter (fun c => decide (c.z = k)), c.z = k := by
    intro c hc
    simpa using (List.mem_filter.mp hc).2
  have hpw : (l.filter (fun c => decide (c.z = k))).Pairwise (fun a b => zle a b) := by
    refine List.pairwise_of_forall_mem_list ?_
    intro a ha b hb
    simp [zle, hmem a ha, hmem b hb]
  have h2 : List.Sublist (l.filter (fun c => decide (c.z = k))) (l.mergeSort zle) :=
    List.sublist_mergeSort zle_trans zle_total hpw hsub
  have hself : (l.filter (fun c => decide (c.z = k))).filter (fun c => decide (c.z = k))
      = l.filter (fun c => decide (c.z = k)) :=
    List.filter_eq_self.mpr (fun a ha => by simp [hmem a ha])
  have h3 : List.Sublist (l.filter (fun c => decide (c.z = k)))
      ((l.mergeSort zle).filter (fun c => decide (c.z = k))) := by
    have := h2.filter (fun c => decide (c.z = k))
    rwa [hself] at this
  have hperm : List.Perm ((l.mergeSort zle).filter (fun c => decide (c.z = k)))
      (l.filter (fun c => decide (c.z = k))) :=
    (List.mergeSort_perm l zle).filter _
  exact (h3.eq_of_length hperm.length_eq.symm).symm

/-- Claim C3: z-order invariant — every draw list the resolver returns is
sorted non-decreasing by `z`, and commands with equal `z` keep their
insertion order: restricted to any `z` value the output is exactly the
scene commands followed by the overlay commands, so at equal `z` scene
objects draw first. -/
theorem c3_zorder (p : Project) (ms : ℚ) (cmds : List DrawCmd)
    (h : buildActiveObjects p ms = Except.ok cmds) :
    cmds.Pairwise (fun a b => a.z ≤ b.z)
    ∧ ∃ s, sceneCommands p ms = Except.ok s
        ∧ ∀ k : ℤ, cmds.filter (fun c => decide (c.z = k))
            = (s ++ overlayCommands p ms).filter (fun c => decide (c.z = k)) := by
  unfold buildActiveObjects at h
  cases hs : sceneCommands p ms with
  | error e =>
    rw [hs, exceptBindError] at h
    cases h
  | ok s =>
    rw [hs, exceptBindOk] at h
    have hc : (s ++ overlayCommands p ms).mergeSort zle = cmds := Except.ok.inj h
    subst hc
    constructor
    · have hp := List.sorted_mergeSort zle_trans zle_total (s ++ overlayCommands p ms)
      exact hp.imp (fun hab => by simpa [zle] using hab)
    · exact ⟨s, rfl, fun k => mergeSort_filter_z _ k⟩

/-- An overlay with `z = 7`, active during `[0 s, 10 s)`. -/
def ov3 : Overlay := { start := 0, stop := 10, src := some "logo.png", z := some 7 }

/-- A project containing only the overlay `ov3`. -/
def proj3 : Project := { overlays := [ov3] }

/-- Witness for C3: the sortedness of the resolver output for `proj3` at
`ms = 500`. -/
theorem c3_witness :
    List.Pairwise (fun a b : DrawCmd => a.z ≤ b.z) [overlayPush ov3] := by
  have hoc : overlayCommands proj3 500 = [overlayPush ov3] := by
    rw [overlayCommands_eq_filter_map]
    norm_num [proj3, overlayActive, ov3]
  have hbuild : buildActiveObjects proj3 500 = Except.ok [overlayPush ov3] := by
    have hsc : sceneCommands proj3 500 = Except.ok [] := rfl
    unfold buildActiveObjects
    rw [hsc, exceptBindOk, hoc]
    simp
    rfl
  exact (c3_zorder proj3 500 [overlayPush ov3] hbuild).1
